import Mathlib

/-!
Verification development for the arcade-shooter simulation in `src/src/App.tsx`
("Jack 星际先锋").  The per-frame simulation step of the game loop is embedded
shallowly:

* JS numbers are modelled as exact rationals (`ℚ`); the integer counters
  (score, lives, level, invincibility, millisecond timestamps) as `ℤ`.
* `Math.hypot dx dy < r` is modelled as the equivalent exact comparison
  `dx ^ 2 + dy ^ 2 < r ^ 2`.
* The `Math.random()` draws and the current clock (`Date.now()`) are supplied
  as explicit per-frame inputs (`FrameInput`).
* React state updates: `setScore`/`setLives` use functional updaters, so their
  effects accumulate within a frame; `setLevel(Math.floor(score / 2000) + 1)`
  reads the closure variable `score`, i.e. the score committed at the start of
  the frame, not the updates queued during the frame.  The model mirrors this.
* `Array.prototype.forEach` combined with `splice` inside the callback is
  modelled exactly: the iteration counter keeps advancing after a `splice`,
  so the element that slid into the removed slot is skipped, and iteration
  stops as soon as the counter reaches the (shrunken) current length.  The
  loops are written with an explicit fuel equal to the initial array length,
  which is exact because the arrays only shrink while being iterated.
-/

/-- Background star: position and size/speed `s` (the Star interface of the
source; renamed because Mathlib already declares `Star`). -/
structure BgStar where
  x : ℚ
  y : ℚ
  s : ℚ
  deriving DecidableEq, Repr

/-- Projectile (`Bullet` interface): a position. -/
structure Bullet where
  x : ℚ
  y : ℚ
  deriving DecidableEq, Repr

/-- Player ship (`class Player`): position, speed 8, invincibility counter. -/
structure Player where
  x : ℚ
  y : ℚ
  speed : ℚ := 8
  invincibility : ℤ := 0
  deriving DecidableEq, Repr

/-- The `Player` constructor: centered horizontally, 120 above the bottom. -/
def mkPlayer (canvasWidth canvasHeight : ℚ) : Player :=
  { x := canvasWidth / 2, y := canvasHeight - 120 }

/-- Enemy ship (`class Enemy`): position and downward speed. -/
structure Enemy where
  x : ℚ
  y : ℚ
  speed : ℚ
  deriving DecidableEq, Repr

/-- The `Enemy` constructor.  `rx` and `rs` are the two `Math.random()` draws
(each in `[0,1)`): `x = random * (canvasWidth - 60) + 30`, `y = -60`,
`speed = 3 + random * 2 + level * 0.5`. -/
def mkEnemy (canvasWidth : ℚ) (level : ℤ) (rx rs : ℚ) : Enemy :=
  { x := rx * (canvasWidth - 60) + 30
    y := -60
    speed := 3 + rs * 2 + (level : ℚ) * (1 / 2) }

/-- The keyboard/touch flags the game reads from `keysRef.current`. -/
structure Keys where
  w : Bool := false
  arrowUp : Bool := false
  s : Bool := false
  arrowDown : Bool := false
  a : Bool := false
  arrowLeft : Bool := false
  d : Bool := false
  arrowRight : Bool := false
  space : Bool := false
  isTouch : Bool := false
  deriving DecidableEq, Repr

/-- Method `Player.update`: apply the four axis movements, clamp the position to a
margin of 30 inside the canvas, and decrement a positive invincibility
counter. -/
def Player.update (p : Player) (keys : Keys) (canvasWidth canvasHeight : ℚ) :
    Player :=
  let y0 := if keys.w || keys.arrowUp then p.y - p.speed else p.y
  let y1 := if keys.s || keys.arrowDown then y0 + p.speed else y0
  let x0 := if keys.a || keys.arrowLeft then p.x - p.speed else p.x
  let x1 := if keys.d || keys.arrowRight then x0 + p.speed else x0
  { p with
    x := max 30 (min (canvasWidth - 30) x1)
    y := max 30 (min (canvasHeight - 30) y1)
    invincibility :=
      if 0 < p.invincibility then p.invincibility - 1 else p.invincibility }

/-- The check `Math.hypot(b.x - e.x, b.y - e.y) < 25`, stated on squared
distances. -/
def bulletHitsEnemy (b : Bullet) (e : Enemy) : Prop :=
  (b.x - e.x) ^ 2 + (b.y - e.y) ^ 2 < 25 ^ 2

instance (b : Bullet) (e : Enemy) : Decidable (bulletHitsEnemy b e) :=
  inferInstanceAs (Decidable (_ < _))

/-- The check `Math.hypot(e.x - player.x, e.y - player.y) < 40`, on squared
distances. -/
def enemyHitsPlayer (e : Enemy) (p : Player) : Prop :=
  (e.x - p.x) ^ 2 + (e.y - p.y) ^ 2 < 40 ^ 2

instance (e : Enemy) (p : Player) : Decidable (enemyHitsPlayer e p) :=
  inferInstanceAs (Decidable (_ < _))

/-- The shooting logic: while the fire input is held and more than 150 ms have
passed since the last shot, push one bullet at `(player.x, player.y - 30)` and
record the shot time; otherwise leave both unchanged. -/
def shootStep (p : Player) (keys : Keys) (now lastShootTime : ℤ)
    (bullets : List Bullet) : List Bullet × ℤ :=
  if (keys.space || keys.isTouch) ∧ 150 < now - lastShootTime then
    (bullets ++ [{ x := p.x, y := p.y - 30 }], now)
  else
    (bullets, lastShootTime)

/-- The inner `enemiesRef.current.forEach((e, ei) => ...)` of the bullet loop:
scan the enemies with the (already moved) bullet object `b`, whose outer index
is `i`.  On a hit the score gains 100 and `splice` removes index `i` from the
bullets and index `ei` from the enemies; the scan then continues with the same
bullet object and the next counter value, exactly as `forEach` does. -/
def bulletScanAux (b : Bullet) (i : ℕ) :
    ℕ → ℕ → List Bullet → List Enemy → ℤ → List Bullet × List Enemy × ℤ
  | 0, _, bullets, enemies, score => (bullets, enemies, score)
  | fuel + 1, ei, bullets, enemies, score =>
    if h : ei < enemies.length then
      if bulletHitsEnemy b (enemies.get ⟨ei, h⟩) then
        bulletScanAux b i fuel (ei + 1) (bullets.eraseIdx i)
          (enemies.eraseIdx ei) (score + 100)
      else
        bulletScanAux b i fuel (ei + 1) bullets enemies score
    else (bullets, enemies, score)

/-- The outer `bulletsRef.current.forEach((b, i) => ...)`: move each visited
bullet up by 12, drop it when it exits the top (`b.y < 0`), otherwise run the
collision scan against the enemies. -/
def bulletsLoopAux :
    ℕ → ℕ → List Bullet → List Enemy → ℤ → List Bullet × List Enemy × ℤ
  | 0, _, bullets, enemies, score => (bullets, enemies, score)
  | fuel + 1, i, bullets, enemies, score =>
    if h : i < bullets.length then
      let b := { bullets.get ⟨i, h⟩ with y := (bullets.get ⟨i, h⟩).y - 12 }
      let bullets1 := bullets.set i b
      if b.y < 0 then
        bulletsLoopAux fuel (i + 1) (bullets1.eraseIdx i) enemies score
      else
        let r := bulletScanAux b i enemies.length 0 bullets1 enemies score
        bulletsLoopAux fuel (i + 1) r.1 r.2.1 r.2.2
    else (bullets, enemies, score)

/-- The bullet stage of a frame (movement, top-exit removal, collisions). -/
def bulletsStage (bullets : List Bullet) (enemies : List Enemy) (score : ℤ) :
    List Bullet × List Enemy × ℤ :=
  bulletsLoopAux bullets.length 0 bullets enemies score

/-- Enemy spawning: with probability `0.02 + level * 0.01` (the spawn roll is
a `Math.random()` draw in `[0,1)`) push one new enemy. -/
def spawnStage (canvasWidth : ℚ) (level : ℤ) (roll rx rs : ℚ)
    (enemies : List Enemy) : List Enemy :=
  if roll < 2 / 100 + (level : ℚ) * (1 / 100) then
    enemies ++ [mkEnemy canvasWidth level rx rs]
  else enemies

/-- Result of the enemy stage of a frame. -/
structure EnemiesResult where
  enemies : List Enemy
  player : Player
  lives : ℤ
  gameActive : Bool
  isGameOver : Bool
  deriving DecidableEq, Repr

/-- The `enemiesRef.current.forEach((e, i) => ...)` loop: move each visited
enemy down by its speed, drop it past the bottom edge, otherwise if the player
is not invincible and within distance 40 decrement lives (entering GameOver
when they reach 0), grant 100 frames of invincibility and remove the enemy. -/
def enemiesLoopAux (canvasHeight : ℚ) :
    ℕ → ℕ → List Enemy → Player → ℤ → Bool → Bool → EnemiesResult
  | 0, _, enemies, p, lives, ga, igo => ⟨enemies, p, lives, ga, igo⟩
  | fuel + 1, i, enemies, p, lives, ga, igo =>
    if h : i < enemies.length then
      let e := { enemies.get ⟨i, h⟩ with
                 y := (enemies.get ⟨i, h⟩).y + (enemies.get ⟨i, h⟩).speed }
      let enemies1 := enemies.set i e
      if canvasHeight < e.y then
        enemiesLoopAux canvasHeight fuel (i + 1) (enemies1.eraseIdx i) p lives
          ga igo
      else if p.invincibility ≤ 0 ∧ enemyHitsPlayer e p then
        enemiesLoopAux canvasHeight fuel (i + 1) (enemies1.eraseIdx i)
          { p with invincibility := 100 } (lives - 1)
          (if lives - 1 ≤ 0 then false else ga)
          (if lives - 1 ≤ 0 then true else igo)
      else
        enemiesLoopAux canvasHeight fuel (i + 1) enemies1 p lives ga igo
    else ⟨enemies, p, lives, ga, igo⟩

/-- The enemy stage of a frame (movement, bottom-exit removal, player
collision and its life/game-over handling). -/
def enemiesStage (canvasHeight : ℚ) (enemies : List Enemy) (p : Player)
    (lives : ℤ) (ga igo : Bool) : EnemiesResult :=
  enemiesLoopAux canvasHeight enemies.length 0 enemies p lives ga igo

/-- The star `forEach`: move each visited star down by its size, removing the
ones past the bottom edge (same `forEach`/`splice` semantics). -/
def starsLoopAux (canvasHeight : ℚ) : ℕ → ℕ → List BgStar → List BgStar
  | 0, _, stars => stars
  | fuel + 1, i, stars =>
    if h : i < stars.length then
      let s1 := { stars.get ⟨i, h⟩ with
                  y := (stars.get ⟨i, h⟩).y + (stars.get ⟨i, h⟩).s }
      let stars1 := stars.set i s1
      if canvasHeight < s1.y then
        starsLoopAux canvasHeight fuel (i + 1) (stars1.eraseIdx i)
      else starsLoopAux canvasHeight fuel (i + 1) stars1
    else stars

/-- The background-star part of a frame: push one star at the top while the
population is below 100 (`rx`, `rs` are the `Math.random()` draws), then run
the star movement loop. -/
def starsStage (canvasWidth canvasHeight : ℚ) (rx rs : ℚ)
    (stars : List BgStar) : List BgStar :=
  let stars1 :=
    if stars.length < 100 then
      stars ++ [{ x := rx * canvasWidth, y := -10, s := rs * 2 + 1 }]
    else stars
  starsLoopAux canvasHeight stars1.length 0 stars1

/-- The full game state owned by the component: the two React flags, the three
counters, the player and the three entity collections, and the last-shot
timestamp. -/
structure GameState where
  gameActive : Bool
  isGameOver : Bool
  score : ℤ
  lives : ℤ
  level : ℤ
  player : Player
  enemies : List Enemy
  bullets : List Bullet
  stars : List BgStar
  lastShootTime : ℤ
  deriving DecidableEq, Repr

/-- Per-frame external inputs: the sampled key flags, `Date.now()`, the canvas
dimensions, and the `Math.random()` draws consumed this frame (each draw lies
in `[0,1)` when produced by the real generator). -/
structure FrameInput where
  keys : Keys
  now : ℤ
  canvasWidth : ℚ
  canvasHeight : ℚ
  starX : ℚ
  starS : ℚ
  spawnRoll : ℚ
  spawnX : ℚ
  spawnJitter : ℚ
  deriving DecidableEq, Repr

/-- The gameplay part of `loop` (the body of `if (gameActive && ...)`), in
source order: player update, shooting, bullet stage, enemy spawn, enemy stage,
then `setLevel(Math.floor(score / 2000) + 1)`.  The `score` read by `setLevel`
is the closure value, i.e. the score at the start of the frame (`st.score`),
while the committed score is the accumulated updater result. -/
def stepActive (st : GameState) (inp : FrameInput) : GameState :=
  let p1 := st.player.update inp.keys inp.canvasWidth inp.canvasHeight
  let shot := shootStep p1 inp.keys inp.now st.lastShootTime st.bullets
  let bres := bulletsStage shot.1 st.enemies st.score
  let enemies1 := spawnStage inp.canvasWidth st.level inp.spawnRoll inp.spawnX
    inp.spawnJitter bres.2.1
  let er := enemiesStage inp.canvasHeight enemies1 p1 st.lives st.gameActive
    st.isGameOver
  { st with
    gameActive := er.gameActive
    isGameOver := er.isGameOver
    score := bres.2.2
    lives := er.lives
    level := st.score.fdiv 2000 + 1
    player := er.player
    enemies := er.enemies
    bullets := bres.1
    lastShootTime := shot.2 }

/-- One invocation of `loop`: the stars always animate; the gameplay runs only
while `gameActive` is set. -/
def step (st : GameState) (inp : FrameInput) : GameState :=
  let st1 := { st with
    stars := starsStage inp.canvasWidth inp.canvasHeight inp.starX inp.starS
      st.stars }
  if st.gameActive then stepActive st1 inp else st1

/-- Function `startGame`: reset the counters and flags, rebuild the player, clear the
enemies and bullets and the last-shot time.  `starsRef` is not touched. -/
def startGame (st : GameState) (canvasWidth canvasHeight : ℚ) : GameState :=
  { gameActive := true
    isGameOver := false
    score := 0
    lives := 3
    level := 1
    player := mkPlayer canvasWidth canvasHeight
    enemies := []
    bullets := []
    stars := st.stars
    lastShootTime := 0 }

/-- Handler `handleTouchMove`: set the player position directly to
`(clientX, clientY - 60)`, with no clamping. -/
def touchMove (st : GameState) (tx ty : ℚ) : GameState :=
  { st with player := { st.player with x := tx, y := ty - 60 } }

/-- Handler `handleTouchStart`: same position assignment as
`handleTouchMove` (it
additionally raises the `isTouch` key flag, which in this model is part of the
per-frame `Keys` input). -/
def touchStart (st : GameState) (tx ty : ℚ) : GameState :=
  touchMove st tx ty

/-- States reachable from a game start through frames and touch events.
`startGame` may fire from any prior page state (it only keeps the stars). -/
inductive Reachable : GameState → Prop
  | ofStart (st : GameState) (cw ch : ℚ) : Reachable (startGame st cw ch)
  | ofStep (st : GameState) (inp : FrameInput) :
      Reachable st → Reachable (step st inp)
  | ofTouchStart (st : GameState) (tx ty : ℚ) :
      Reachable st → Reachable (touchStart st tx ty)
  | ofTouchMove (st : GameState) (tx ty : ℚ) :
      Reachable st → Reachable (touchMove st tx ty)

/-- The player as updated by an active frame, before the enemy stage. -/
def framePlayer (st : GameState) (inp : FrameInput) : Player :=
  st.player.update inp.keys inp.canvasWidth inp.canvasHeight

/-- The bullets-and-timestamp pair after the shooting logic of an active
frame. -/
def frameShot (st : GameState) (inp : FrameInput) : List Bullet × ℤ :=
  shootStep (framePlayer st inp) inp.keys inp.now st.lastShootTime st.bullets

/-- The bullets, enemies and score after the bullet stage of an active
frame. -/
def frameBullets (st : GameState) (inp : FrameInput) :
    List Bullet × List Enemy × ℤ :=
  bulletsStage (frameShot st inp).1 st.enemies st.score

/-- The enemy collection after the spawn stage of an active frame. -/
def frameEnemies (st : GameState) (inp : FrameInput) : List Enemy :=
  spawnStage inp.canvasWidth st.level inp.spawnRoll inp.spawnX inp.spawnJitter
    (frameBullets st inp).2.1

/-- The result of the enemy stage of an active frame. -/
def frameEnd (st : GameState) (inp : FrameInput) : EnemiesResult :=
  enemiesStage inp.canvasHeight (frameEnemies st inp) (framePlayer st inp)
    st.lives st.gameActive st.isGameOver

/-- The inductive state invariant: lives are never negative, an active game
has at least one life, and a run out of lives means the game-over state. -/
def LivesInv (st : GameState) : Prop :=
  0 ≤ st.lives ∧ (st.gameActive = true → 1 ≤ st.lives) ∧
  (st.lives ≤ 0 → st.gameActive = false ∧ st.isGameOver = true)

/-- A concrete page state before a game start: no entities, default flags. -/
def demoBase : GameState :=
  { gameActive := false, isGameOver := false, score := 0, lives := 3,
    level := 1, player := mkPlayer 300 260, enemies := [], bullets := [],
    stars := [], lastShootTime := 0 }

/-- A concrete quiet frame input: no keys held, in-range random draws that
spawn nothing. -/
def demoInput : FrameInput :=
  { keys := {}, now := 1000, canvasWidth := 400, canvasHeight := 400,
    starX := 0, starS := 0, spawnRoll := 99 / 100, spawnX := 0,
    spawnJitter := 0 }

/-- A concrete active in-game state with an invincible player. -/
def demoActive : GameState :=
  { gameActive := true, isGameOver := false, score := 500, lives := 2,
    level := 1, player := { x := 200, y := 280, invincibility := 5 },
    enemies := [], bullets := [], stars := [], lastShootTime := 0 }

/-- Key state with only the fire key held. -/
def fireKeys : Keys := { space := true }

/-- The frame inputs of the concrete level-lag run: canvas 300 × 260, fire
held for the first 21 frames, a (probability-eligible) spawn roll of 0 for the
first 20 frames and a non-spawning roll of 0.99 afterwards, enemy x-draw 1/2
(spawn at x = 150, the player column) and speed-draw 1/2 (speed 4.5), clock
1000 ms per frame.  All random draws lie in `[0, 1)`. -/
def c5Input (n : ℕ) : FrameInput :=
  { keys := { space := decide (n ≤ 21) }, now := 1000 * (n : ℤ),
    canvasWidth := 300, canvasHeight := 260,
    starX := 0, starS := 0,
    spawnRoll := if n ≤ 20 then 0 else 99 / 100,
    spawnX := 1 / 2, spawnJitter := 1 / 2 }

/-- Thirty frames of the level-lag run. -/
def c5Inputs : List FrameInput := (List.range 30).map (fun k => c5Input (k + 1))

/-- The state reached by starting a game on a 300 × 260 canvas and playing
the thirty `c5Inputs` frames: the 20th enemy is shot during frame 30, the
committed score crosses 2000, but `setLevel` used the frame-start score 1900,
leaving `level = 1`. -/
def c5Bad : GameState := c5Inputs.foldl step (startGame demoBase 300 260)

/-- A concrete active state whose player has exactly one frame of
invincibility left while an enemy sits just above the player. -/
def c6State : GameState :=
  { gameActive := true, isGameOver := false, score := 0, lives := 3,
    level := 1, player := { x := 200, y := 280, invincibility := 1 },
    enemies := [{ x := 200, y := 270, speed := 4 }],
    bullets := [], stars := [], lastShootTime := 0 }

/-- A game-over page state that still has a background star on screen. -/
def c7Base : GameState :=
  { gameActive := false, isGameOver := true, score := 700, lives := 0,
    level := 1, player := mkPlayer 300 260, enemies := [], bullets := [],
    stars := [{ x := 1, y := 2, s := 3 }], lastShootTime := 9000 }

/-! ### Helper lemmas about the loop stages -/

/-- While the player is invincible, the enemy loop only moves/removes enemies:
player, lives and the two flags come out unchanged. -/
theorem enemiesLoopAux_inv_pos (ch : ℚ) (fuel : ℕ) (p : Player)
    (hp : 0 < p.invincibility) :
    ∀ (i : ℕ) (es : List Enemy) (l : ℤ) (ga igo : Bool),
      ∃ es2, enemiesLoopAux ch fuel i es p l ga igo = ⟨es2, p, l, ga, igo⟩ := by
  induction fuel with
  | zero => exact fun i es l ga igo => ⟨es, rfl⟩
  | succ fuel ih =>
    intro i es l ga igo
    simp only [enemiesLoopAux]
    split
    · split
      · exact ih _ _ _ _ _
      · split
        · rename_i hcond
          exact absurd hcond.1 (by omega)
        · exact ih _ _ _ _ _
    · exact ⟨es, rfl⟩

/-- The enemy loop either leaves lives and the flags unchanged, or decrements
lives exactly once, setting the game-over flags exactly when the decremented
value is `≤ 0`. -/
theorem enemiesLoopAux_cases (ch : ℚ) (fuel : ℕ) :
    ∀ (i : ℕ) (es : List Enemy) (p : Player) (l : ℤ) (ga igo : Bool),
      ((enemiesLoopAux ch fuel i es p l ga igo).lives = l ∧
       (enemiesLoopAux ch fuel i es p l ga igo).gameActive = ga ∧
       (enemiesLoopAux ch fuel i es p l ga igo).isGameOver = igo) ∨
      ((enemiesLoopAux ch fuel i es p l ga igo).lives = l - 1 ∧
       ((l - 1 ≤ 0 ∧ (enemiesLoopAux ch fuel i es p l ga igo).gameActive = false ∧
         (enemiesLoopAux ch fuel i es p l ga igo).isGameOver = true) ∨
        (0 < l - 1 ∧ (enemiesLoopAux ch fuel i es p l ga igo).gameActive = ga ∧
         (enemiesLoopAux ch fuel i es p l ga igo).isGameOver = igo))) := by
  induction fuel with
  | zero => exact fun i es p l ga igo => Or.inl ⟨rfl, rfl, rfl⟩
  | succ fuel ih =>
    intro i es p l ga igo
    simp only [enemiesLoopAux]
    split
    · split
      · exact ih _ _ _ _ _ _
      · split
        · obtain ⟨es2, h2⟩ :=
            enemiesLoopAux_inv_pos ch fuel { p with invincibility := 100 }
              (by norm_num) (i + 1)
              (((es.set i _).eraseIdx i)) (l - 1)
              (if l - 1 ≤ 0 then false else ga) (if l - 1 ≤ 0 then true else igo)
          rw [h2]
          by_cases hl : l - 1 ≤ 0
          · exact Or.inr ⟨rfl, Or.inl ⟨hl, by simp [hl], by simp [hl]⟩⟩
          · exact Or.inr ⟨rfl, Or.inr ⟨by omega, by simp [hl], by simp [hl]⟩⟩
        · exact ih _ _ _ _ _ _
    · exact Or.inl ⟨rfl, rfl, rfl⟩

/-- The enemy loop returns either the player it was given or one whose
invincibility counter was just reset to 100. -/
theorem enemiesLoopAux_player (ch : ℚ) (fuel : ℕ) :
    ∀ (i : ℕ) (es : List Enemy) (p : Player) (l : ℤ) (ga igo : Bool),
      (enemiesLoopAux ch fuel i es p l ga igo).player = p ∨
      (enemiesLoopAux ch fuel i es p l ga igo).player.invincibility = 100 := by
  induction fuel with
  | zero => exact fun i es p l ga igo => Or.inl rfl
  | succ fuel ih =>
    intro i es p l ga igo
    simp only [enemiesLoopAux]
    split
    · split
      · exact ih _ _ _ _ _ _
      · split
        · obtain ⟨es2, h2⟩ :=
            enemiesLoopAux_inv_pos ch fuel { p with invincibility := 100 }
              (by norm_num) (i + 1)
              (((es.set i _).eraseIdx i)) (l - 1)
              (if l - 1 ≤ 0 then false else ga) (if l - 1 ≤ 0 then true else igo)
          rw [h2]
          exact Or.inr rfl
        · exact ih _ _ _ _ _ _
    · exact Or.inl rfl

/-- The inner collision scan only ever adds 100s to the score. -/
theorem bulletScanAux_score (b : Bullet) (i : ℕ) (fuel : ℕ) :
    ∀ (ei : ℕ) (bs : List Bullet) (es : List Enemy) (sc : ℤ),
      ∃ k : ℕ, (bulletScanAux b i fuel ei bs es sc).2.2 = sc + 100 * (k : ℤ) := by
  induction fuel with
  | zero => exact fun ei bs es sc => ⟨0, by simp [bulletScanAux]⟩
  | succ fuel ih =>
    intro ei bs es sc
    simp only [bulletScanAux]
    split
    · split
      · obtain ⟨k, hk⟩ := ih (ei + 1) (bs.eraseIdx i) _ (sc + 100)
        exact ⟨k + 1, by rw [hk]; push_cast; ring⟩
      · exact ih _ _ _ _
    · exact ⟨0, by simp⟩

/-- The bullet loop only ever adds 100s to the score. -/
theorem bulletsLoopAux_score (fuel : ℕ) :
    ∀ (i : ℕ) (bs : List Bullet) (es : List Enemy) (sc : ℤ),
      ∃ k : ℕ, (bulletsLoopAux fuel i bs es sc).2.2 = sc + 100 * (k : ℤ) := by
  induction fuel with
  | zero => exact fun i bs es sc => ⟨0, by simp [bulletsLoopAux]⟩
  | succ fuel ih =>
    intro i bs es sc
    simp only [bulletsLoopAux]
    split
    · split
      · exact ih _ _ _ _
      · obtain ⟨k1, h1⟩ := bulletScanAux_score _ i es.length 0 _ es sc
        obtain ⟨k2, h2⟩ := ih (i + 1) _ _ _
        exact ⟨k1 + k2, by rw [h2, h1]; push_cast; ring⟩
    · exact ⟨0, by simp⟩

/-- A frame in which the game is not active changes nothing but the stars. -/
theorem step_inactive (st : GameState) (inp : FrameInput)
    (ha : st.gameActive = false) :
    (step st inp).gameActive = false ∧
    (step st inp).isGameOver = st.isGameOver ∧
    (step st inp).score = st.score ∧
    (step st inp).lives = st.lives ∧
    (step st inp).level = st.level ∧
    (step st inp).player = st.player ∧
    (step st inp).enemies = st.enemies ∧
    (step st inp).bullets = st.bullets ∧
    (step st inp).lastShootTime = st.lastShootTime := by
  simp [step, ha]

/-- An active frame is the gameplay step on the star-updated state. -/
theorem step_active (st : GameState) (inp : FrameInput)
    (ha : st.gameActive = true) :
    step st inp =
      stepActive
        { st with
          stars :=
            starsStage inp.canvasWidth inp.canvasHeight inp.starX inp.starS
              st.stars }
        inp := by
  simp [step, ha]

/-- In any active frame, lives either stay or drop by exactly one, and the
game-over transition fires exactly when the dropped value is `≤ 0`. -/
theorem step_lives_cases (st : GameState) (inp : FrameInput)
    (ha : st.gameActive = true) :
    ((step st inp).lives = st.lives ∧ (step st inp).gameActive = true ∧
     (step st inp).isGameOver = st.isGameOver) ∨
    ((step st inp).lives = st.lives - 1 ∧
     ((st.lives - 1 ≤ 0 ∧ (step st inp).gameActive = false ∧
       (step st inp).isGameOver = true) ∨
      (0 < st.lives - 1 ∧ (step st inp).gameActive = true ∧
       (step st inp).isGameOver = st.isGameOver))) := by
  rw [step_active st inp ha, ha]
  exact enemiesLoopAux_cases inp.canvasHeight _ 0 _ _ st.lives true
    st.isGameOver

/-- Every frame changes the score by a (possibly zero) number of 100-point
rewards. -/
theorem step_score (st : GameState) (inp : FrameInput) :
    ∃ k : ℕ, (step st inp).score = st.score + 100 * (k : ℤ) := by
  by_cases ha : st.gameActive
  · rw [step_active st inp ha]
    exact bulletsLoopAux_score _ 0 _ st.enemies st.score
  · exact ⟨0, by simp [step, ha]⟩

/-- Every reachable state satisfies the lives invariant. -/
theorem reachable_livesInv (st : GameState) (h : Reachable st) : LivesInv st := by
  induction h with
  | ofStart st cw ch =>
    refine ⟨?_, ?_, ?_⟩ <;> intros <;> simp_all [startGame, LivesInv]
  | ofStep st inp hst ih =>
    obtain ⟨hnn, hact, hdead⟩ := ih
    by_cases ha : st.gameActive = true
    · have hl1 : 1 ≤ st.lives := hact ha
      rcases step_lives_cases st inp ha with
        ⟨he, hg, ho⟩ | ⟨he, ⟨hz, hg, ho⟩ | ⟨hp, hg, ho⟩⟩
      · refine ⟨by omega, fun _ => by omega, fun h0 => absurd h0 (by omega)⟩
      · refine ⟨by omega, fun hg2 => ?_, fun _ => ⟨hg, ho⟩⟩
        rw [hg] at hg2; cases hg2
      · refine ⟨by omega, fun _ => by omega, fun h0 => absurd h0 (by omega)⟩
    · have ha2 : st.gameActive = false := by simpa using ha
      obtain ⟨hga, higo, hsc, hlv, -, -, -, -, -⟩ := step_inactive st inp ha2
      refine ⟨by omega, fun hg2 => ?_, fun h0 => ?_⟩
      · rw [hga] at hg2; cases hg2
      · rw [hlv] at h0
        exact ⟨hga, higo ▸ (hdead h0).2⟩
  | ofTouchStart st tx ty hst ih => exact ih
  | ofTouchMove st tx ty hst ih => exact ih

/-- Reachability is preserved by folding frames over a reachable state. -/
theorem reachable_foldl (inps : List FrameInput) (st : GameState)
    (h : Reachable st) : Reachable (inps.foldl step st) := by
  induction inps generalizing st with
  | nil => exact h
  | cons inp rest ih => exact ih _ (Reachable.ofStep st inp h)

/-- The enemy stage unfolded to its fuelled loop. -/
theorem frameEnd_def (st : GameState) (inp : FrameInput) :
    frameEnd st inp =
      enemiesLoopAux inp.canvasHeight (frameEnemies st inp).length 0
        (frameEnemies st inp) (framePlayer st inp) st.lives st.gameActive
        st.isGameOver := rfl

/-- The player update of a frame only changes the invincibility counter by
the guarded decrement of the source. -/
theorem framePlayer_inv (st : GameState) (inp : FrameInput) :
    (framePlayer st inp).invincibility =
      if 0 < st.player.invincibility then st.player.invincibility - 1
      else st.player.invincibility := rfl

/-- The fields of an active frame, expressed through the stage functions. -/
theorem step_fields (st : GameState) (inp : FrameInput)
    (ha : st.gameActive = true) :
    (step st inp).player = (frameEnd st inp).player ∧
    (step st inp).lives = (frameEnd st inp).lives ∧
    (step st inp).gameActive = (frameEnd st inp).gameActive ∧
    (step st inp).isGameOver = (frameEnd st inp).isGameOver ∧
    (step st inp).score = (frameBullets st inp).2.2 ∧
    (step st inp).level = st.score.fdiv 2000 + 1 ∧
    (step st inp).bullets = (frameBullets st inp).1 ∧
    (step st inp).enemies = (frameEnd st inp).enemies ∧
    (step st inp).lastShootTime = (frameShot st inp).2 := by
  rw [step_active st inp ha]
  exact ⟨rfl, rfl, rfl, rfl, rfl, rfl, rfl, rfl, rfl⟩

/-! ### Claims -/

/-- C1: the claim states that every projectile/enemy pair closer than the
hit-radius 25 is removed within the same step, with one 100-point reward per
colliding pair and no already-removed entity matched again.  The source
instead `splice`s both arrays inside the `forEach` callbacks, so the element
shifted into the removed slot is skipped.  Concretely: two bullets at
(200, 62) and two enemies at (200, 50) form four colliding pairs (distance 12,
or 0 after the 12-pixel bullet move), yet the stage removes only the first
bullet and the first enemy, scores a single 100, and leaves the second
bullet/enemy pair — still within the hit radius — untouched (the surviving
bullet was not even moved that frame). -/
theorem c1_collision_mid_iteration_bug :
    bulletHitsEnemy { x := 200, y := 62 } { x := 200, y := 50, speed := 4 } ∧
    bulletsStage
        [{ x := 200, y := 62 }, { x := 200, y := 62 }]
        [{ x := 200, y := 50, speed := 4 }, { x := 200, y := 50, speed := 4 }]
        0 =
      ([{ x := 200, y := 62 }], [{ x := 200, y := 50, speed := 4 }], 100) := by
  with_unfolding_all decide

/-- C2: life depletion is terminal.  (1) In every reachable state lives are
never negative; (2) when a frame brings lives to zero the game leaves the
active state and enters GameOver; (3) once inactive, a frame changes no
gameplay state at all (the decorative star background still animates), so the
simulation is halted until an explicit restart. -/
theorem c2_game_over_terminal :
    (∀ st : GameState, Reachable st → 0 ≤ st.lives) ∧
    (∀ (st : GameState) (inp : FrameInput), Reachable st →
      (step st inp).lives = 0 →
      (step st inp).gameActive = false ∧ (step st inp).isGameOver = true) ∧
    (∀ (st : GameState) (inp : FrameInput), st.gameActive = false →
      (step st inp).gameActive = false ∧
      (step st inp).isGameOver = st.isGameOver ∧
      (step st inp).score = st.score ∧
      (step st inp).lives = st.lives ∧
      (step st inp).level = st.level ∧
      (step st inp).player = st.player ∧
      (step st inp).enemies = st.enemies ∧
      (step st inp).bullets = st.bullets ∧
      (step st inp).lastShootTime = st.lastShootTime) := by
  refine ⟨fun st h => (reachable_livesInv st h).1,
    fun st inp h h0 => ?_, step_inactive⟩
  obtain ⟨hnn, hact, hdead⟩ := reachable_livesInv st h
  by_cases ha : st.gameActive = true
  · have hl1 : 1 ≤ st.lives := hact ha
    rcases step_lives_cases st inp ha with
      ⟨he, hg, ho⟩ | ⟨he, ⟨hz, hg, ho⟩ | ⟨hp, hg, ho⟩⟩
    · omega
    · exact ⟨hg, ho⟩
    · omega
  · have ha2 : st.gameActive = false := by simpa using ha
    obtain ⟨hga, higo, -, hlv, -, -, -, -, -⟩ := step_inactive st inp ha2
    rw [hlv] at h0
    exact ⟨hga, higo ▸ (hdead (by omega)).2⟩

/-- Witness for `c2_game_over_terminal`: a freshly started game is reachable
with non-negative lives, and a frame over the concrete inactive state
`demoBase` keeps its score. -/
theorem c2_game_over_terminal_witness :
    0 ≤ (startGame demoBase 300 260).lives ∧
    (step demoBase demoInput).score = demoBase.score :=
  ⟨c2_game_over_terminal.1 _ (Reachable.ofStart demoBase 300 260),
   (c2_game_over_terminal.2.2 demoBase demoInput rfl).2.2.1⟩

/-- C3 counterexample: the claim quantifies over any canvas dimensions, but on
a 10 × 10 canvas the clamp `max 30 (min (width - 30) x)` returns 30, which is
not inside the claimed interval `[30, width - 30] = [30, -20]` (the interval
is empty), so the updated x-coordinate violates the claimed upper bound. -/
theorem c3_clamp_counterexample :
    ¬ (Player.update { x := 5, y := 5 } {} 10 10).x ≤ 10 - 30 := by
  with_unfolding_all decide

/-- C3 (amended): whenever both canvas dimensions are at least twice the
30-pixel margin, the player position after `Player.update` lies within
`[30, width - 30] × [30, height - 30]`, for every key state and player. -/
theorem c3_clamp_in_bounds (p : Player) (keys : Keys)
    (canvasWidth canvasHeight : ℚ) (hw : 60 ≤ canvasWidth)
    (hh : 60 ≤ canvasHeight) :
    30 ≤ (p.update keys canvasWidth canvasHeight).x ∧
    (p.update keys canvasWidth canvasHeight).x ≤ canvasWidth - 30 ∧
    30 ≤ (p.update keys canvasWidth canvasHeight).y ∧
    (p.update keys canvasWidth canvasHeight).y ≤ canvasHeight - 30 := by
  simp only [Player.update]
  exact ⟨le_max_left _ _, max_le (by linarith) (min_le_left _ _),
    le_max_left _ _, max_le (by linarith) (min_le_left _ _)⟩

/-- Witness for `c3_clamp_in_bounds` on an 800 × 600 canvas with the
right-arrow key held. -/
theorem c3_clamp_in_bounds_witness :
    (60 : ℚ) ≤ 800 ∧ (60 : ℚ) ≤ 600 ∧
    30 ≤ (Player.update { x := 100, y := 100 } { arrowRight := true }
      800 600).x :=
  ⟨by norm_num, by norm_num,
   (c3_clamp_in_bounds { x := 100, y := 100 } { arrowRight := true } 800 600
     (by norm_num) (by norm_num)).1⟩

/-- C4: with the fire input held, a frame within 150 ms of the last shot
leaves the bullet list and the shot timestamp unchanged, and a frame beyond
150 ms appends exactly one bullet at `(player.x, player.y - 30)` and records
the new time. -/
theorem c4_fire_rate_limit (p : Player) (keys : Keys)
    (now lastShootTime : ℤ) (bullets : List Bullet)
    (hfire : (keys.space || keys.isTouch) = true) :
    (now - lastShootTime ≤ 150 →
      shootStep p keys now lastShootTime bullets = (bullets, lastShootTime)) ∧
    (150 < now - lastShootTime →
      shootStep p keys now lastShootTime bullets =
        (bullets ++ [{ x := p.x, y := p.y - 30 }], now)) := by
  constructor <;> intro h
  · rw [shootStep, if_neg fun hc => absurd hc.2 (by omega)]
  · rw [shootStep, if_pos ⟨by simp [hfire], h⟩]

/-- Witness for `c4_fire_rate_limit`: firing 200 ms after the last shot from
the freshly constructed player appends one bullet 30 above the player. -/
theorem c4_fire_rate_limit_witness :
    (fireKeys.space || fireKeys.isTouch) = true ∧
    shootStep (mkPlayer 300 260) fireKeys 200 0 [] =
      ([{ x := (mkPlayer 300 260).x, y := (mkPlayer 300 260).y - 30 }], 200) :=
  ⟨rfl, (c4_fire_rate_limit (mkPlayer 300 260) fireKeys 200 0 [] rfl).2
    (by norm_num)⟩

set_option maxRecDepth 20000 in
set_option maxHeartbeats 8000000 in
/-- Evaluation of the level-lag run: after frame 30 the committed score is
2000 while the committed level is still 1. -/
theorem c5Bad_eval : c5Bad.score = 2000 ∧ c5Bad.level = 1 := by
  with_unfolding_all decide

/-- C5 counterexample: `c5Bad` is reachable (start on a 300 × 260 canvas,
then thirty concrete frames), yet its level, 1, differs from
`floor(score / 2000) + 1 = 2`: `setLevel(Math.floor(score / 2000) + 1)` reads
the closure variable `score` holding the frame-start value 1900, so the level
lags one frame behind a score that crosses a 2000 boundary. -/
theorem c5_level_lag_counterexample :
    Reachable c5Bad ∧ c5Bad.level ≠ c5Bad.score.fdiv 2000 + 1 := by
  refine ⟨reachable_foldl c5Inputs _ (Reachable.ofStart demoBase 300 260), ?_⟩
  rw [c5Bad_eval.1, c5Bad_eval.2]
  with_unfolding_all decide

/-- C5 (amended): every active frame recomputes the level as a deterministic
function of the score — but of the score committed at the start of the frame:
`level2 = floor(scorePre / 2000) + 1` for the new level.  The invariant
`level = floor(score / 2000) + 1` therefore holds whenever the previous
active frame did not move the score across a multiple of 2000, and the level
is never an independently drifting counter. -/
theorem c5_level_recomputed (st : GameState) (inp : FrameInput)
    (ha : st.gameActive = true) :
    (step st inp).level = st.score.fdiv 2000 + 1 :=
  (step_fields st inp ha).2.2.2.2.2.1

/-- Witness for `c5_level_recomputed` on the concrete active state
`demoActive` (score 500): the level after the next frame is
`Int.fdiv 500 2000 + 1`. -/
theorem c5_level_recomputed_witness :
    (step demoActive demoInput).level = demoActive.score.fdiv 2000 + 1 :=
  c5_level_recomputed demoActive demoInput rfl

/-- C6 counterexample: in the concrete state `c6State` the countdown starts
the frame positive (at 1), yet the frame does not decrease it by one — the
player update zeroes it, after which the adjacent enemy immediately hits,
costing a life (3 → 2) and resetting the countdown to 100. -/
theorem c6_invincibility_counterexample :
    0 < c6State.player.invincibility ∧
    (step c6State demoInput).player.invincibility ≠
      c6State.player.invincibility - 1 ∧
    (step c6State demoInput).player.invincibility = 100 ∧
    (step c6State demoInput).lives = c6State.lives - 1 := by
  with_unfolding_all decide

/-- C6 (amended): in any active frame, a countdown that starts at 2 or more
decreases by exactly one and blocks any life loss that frame; the countdown
never goes below zero.  (A countdown of exactly 1 reaches zero inside the
own player update of the frame, after which an enemy within the player
hit-radius
can still cost a life and reset the countdown to 100.) -/
theorem c6_invincibility (st : GameState) (inp : FrameInput)
    (ha : st.gameActive = true) :
    (2 ≤ st.player.invincibility →
      (step st inp).player.invincibility = st.player.invincibility - 1 ∧
      (step st inp).lives = st.lives) ∧
    (0 ≤ st.player.invincibility → 0 ≤ (step st inp).player.invincibility) := by
  constructor
  · intro h2
    have hp : 0 < (framePlayer st inp).invincibility := by
      rw [framePlayer_inv, if_pos (by omega)]; omega
    obtain ⟨es2, heq⟩ := enemiesLoopAux_inv_pos inp.canvasHeight
      (frameEnemies st inp).length (framePlayer st inp) hp 0
      (frameEnemies st inp) st.lives st.gameActive st.isGameOver
    constructor
    · rw [(step_fields st inp ha).1, frameEnd_def, heq]
      show (framePlayer st inp).invincibility = st.player.invincibility - 1
      rw [framePlayer_inv, if_pos (by omega)]
    · rw [(step_fields st inp ha).2.1, frameEnd_def, heq]
  · intro h0
    rw [(step_fields st inp ha).1, frameEnd_def]
    rcases enemiesLoopAux_player inp.canvasHeight (frameEnemies st inp).length
      0 (frameEnemies st inp) (framePlayer st inp) st.lives st.gameActive
      st.isGameOver with hc | hc
    · rw [hc, framePlayer_inv]
      split <;> omega
    · rw [hc]; norm_num

/-- Witness for `c6_invincibility`: on the concrete active state `demoActive`
(countdown 5, no enemies) the next frame leaves 4 frames of invincibility and
both lives. -/
theorem c6_invincibility_witness :
    (2 : ℤ) ≤ demoActive.player.invincibility ∧
    (step demoActive demoInput).player.invincibility =
      demoActive.player.invincibility - 1 ∧
    (step demoActive demoInput).lives = demoActive.lives :=
  ⟨by norm_num [demoActive],
   ((c6_invincibility demoActive demoInput rfl).1 (by norm_num [demoActive])).1,
   ((c6_invincibility demoActive demoInput rfl).1 (by norm_num [demoActive])).2⟩

/-- C7 counterexample: restarting from the concrete game-over state `c7Base`
(which still shows one background star) does not reinitialize the star
collection — `startGame` leaves `starsRef` untouched, so the stars carry over
instead of returning to the initial empty collection. -/
theorem c7_restart_counterexample :
    (startGame c7Base 300 260).stars = [{ x := 1, y := 2, s := 3 }] ∧
    (startGame c7Base 300 260).stars ≠ [] := by
  with_unfolding_all decide

/-- C7 (amended): the restart action resets the flags to Active, the score to
0, lives to 3, level to 1, the last-shot time to 0, rebuilds the player
(re-centered, with zero invincibility) and empties the enemy and projectile
collections, but carries the background-star collection over unchanged; and
it is the only transition back to Active — an inactive frame and the touch
handlers never set the active flag. -/
theorem c7_restart (st : GameState) (cw ch : ℚ) :
    (startGame st cw ch).gameActive = true ∧
    (startGame st cw ch).isGameOver = false ∧
    (startGame st cw ch).score = 0 ∧
    (startGame st cw ch).lives = 3 ∧
    (startGame st cw ch).level = 1 ∧
    (startGame st cw ch).player = mkPlayer cw ch ∧
    (startGame st cw ch).player.invincibility = 0 ∧
    (startGame st cw ch).enemies = [] ∧
    (startGame st cw ch).bullets = [] ∧
    (startGame st cw ch).lastShootTime = 0 ∧
    (startGame st cw ch).stars = st.stars ∧
    (∀ (st2 : GameState) (inp : FrameInput), st2.gameActive = false →
      (step st2 inp).gameActive = false) ∧
    (∀ (st2 : GameState) (tx ty : ℚ),
      (touchStart st2 tx ty).gameActive = st2.gameActive ∧
      (touchMove st2 tx ty).gameActive = st2.gameActive) :=
  ⟨rfl, rfl, rfl, rfl, rfl, rfl, rfl, rfl, rfl, rfl, rfl,
   fun st2 inp h => (step_inactive st2 inp h).1,
   fun _ _ _ => ⟨rfl, rfl⟩⟩

/-- Witness for `c7_restart`: restarting from `c7Base` gives 3 lives, and a
frame over the inactive `demoBase` stays inactive. -/
theorem c7_restart_witness :
    (startGame c7Base 300 260).lives = 3 ∧
    (step demoBase demoInput).gameActive = false :=
  ⟨(c7_restart c7Base 300 260).2.2.2.1,
   (c7_restart c7Base 300 260).2.2.2.2.2.2.2.2.2.2.2.1 demoBase demoInput rfl⟩

/-- C8: the spawn speed `3 + jitter * 2 + level * 0.5` of a level-5 enemy
strictly exceeds that of a level-1 enemy for every pair of jitter draws in
`[0, 1)` (the level-4 head start of 2 outweighs the at-most-2 jitter gap),
and for a fixed jitter the formula is strictly increasing in the level. -/
theorem c8_spawn_speed_increasing :
    (∀ (cw rx1 rx5 r1 r5 : ℚ), 0 ≤ r1 → r1 < 1 → 0 ≤ r5 → r5 < 1 →
      (mkEnemy cw 1 rx1 r1).speed < (mkEnemy cw 5 rx5 r5).speed) ∧
    (∀ (cw rx r : ℚ) (l1 l2 : ℤ), l1 < l2 →
      (mkEnemy cw l1 rx r).speed < (mkEnemy cw l2 rx r).speed) := by
  constructor
  · intro cw rx1 rx5 r1 r5 h1 h2 h3 h4
    simp only [mkEnemy]
    norm_num
    linarith
  · intro cw rx r l1 l2 hl
    simp only [mkEnemy]
    have hc : (l1 : ℚ) < (l2 : ℚ) := by exact_mod_cast hl
    linarith

/-- Witness for `c8_spawn_speed_increasing` at concrete jitters 0 and 1/4 and
levels 1/5 and 2/7. -/
theorem c8_spawn_speed_increasing_witness :
    ((0 : ℚ) ≤ 0 ∧ (0 : ℚ) < 1 ∧ (0 : ℚ) ≤ 1 / 4 ∧ (1 / 4 : ℚ) < 1) ∧
    (mkEnemy 300 1 0 0).speed < (mkEnemy 300 5 0 (1 / 4)).speed ∧
    (mkEnemy 300 2 (1 / 2) (1 / 4)).speed <
      (mkEnemy 300 7 (1 / 2) (1 / 4)).speed :=
  ⟨⟨le_refl 0, by norm_num, by norm_num, by norm_num⟩,
   c8_spawn_speed_increasing.1 300 0 0 0 (1 / 4) (le_refl 0) (by norm_num)
     (by norm_num) (by norm_num),
   c8_spawn_speed_increasing.2 300 (1 / 2) (1 / 4) 2 7 (by norm_num)⟩

/-- C9: both touch handlers set the player position directly to
`(clientX, clientY - 60)` with no clamping, so immediately after a touch the
player can sit outside the `[30, width - 30] × [30, height - 30]` bounds —
e.g. a touch at the screen top (y = 0) puts the player at y = -60 < 30 until
the update of the next frame re-clamps it. -/
theorem c9_touch_sets_position_unclamped :
    (∀ (st : GameState) (tx ty : ℚ),
      (touchStart st tx ty).player.x = tx ∧
      (touchStart st tx ty).player.y = ty - 60) ∧
    (∀ (st : GameState) (tx ty : ℚ),
      (touchMove st tx ty).player.x = tx ∧
      (touchMove st tx ty).player.y = ty - 60) ∧
    (touchMove demoBase 200 0).player.y < 30 := by
  refine ⟨fun st tx ty => ⟨rfl, rfl⟩, fun st tx ty => ⟨rfl, rfl⟩, ?_⟩
  with_unfolding_all decide

/-- C10: within a run, every frame changes the score by `100 * k` for some
number `k ≥ 0` of collision rewards — so the score never decreases — and the
touch handlers never change it; the only other write, `setScore(0)`, happens
in the restart action that ends the run. -/
theorem c10_score_increments_of_100 :
    (∀ (st : GameState) (inp : FrameInput),
      ∃ k : ℕ, (step st inp).score = st.score + 100 * (k : ℤ)) ∧
    (∀ (st : GameState) (inp : FrameInput), st.score ≤ (step st inp).score) ∧
    (∀ (st : GameState) (tx ty : ℚ),
      (touchStart st tx ty).score = st.score ∧
      (touchMove st tx ty).score = st.score) := by
  refine ⟨step_score, fun st inp => ?_, fun st tx ty => ⟨rfl, rfl⟩⟩
  obtain ⟨k, hk⟩ := step_score st inp
  omega
